import Mathlib

/-!
Verification of the Energy IC Copilot KPI-extraction and facts-selection core.

This file shallowly embeds the Python source of the repository
(`apps/api/core/xbrl_client.py`, `apps/api/cite.py`, `core/extract.py`)
into Lean and proves or refutes the frozen specification claims.

Modelling conventions:
- Python strings are `List Char` (named `Str`); only ASCII behaviour is
  modelled (the repository only handles ASCII tag names, frames and dates).
- Python floats and JSON numbers are modelled as `ℚ` (exact arithmetic);
  every numeric literal in the source is exactly representable.
- Python `or` on a value uses truthiness (None, 0.0, "" and [] are falsy);
  this is modelled explicitly by the `pyOr...` helpers.
- `sorted(xs, key, reverse=True)` is a stable descending sort; it is
  modelled by a stable descending insertion sort.
- The Python `re` module is external to the modelled source; in the
  extractor it is abstracted as an oracle (`ReOracle`), except for the
  fixed regexes of `_infer_scale_multiplier` and `_extract_numeric_value`,
  which are translated directly.
-/

namespace EnergyIC

/-- Python strings, modelled as lists of characters. -/
abbrev Str := List Char

/-- Word character for `\b` word boundaries of Python `re` (ASCII fragment of `\w`). -/
def isWordChar (c : Char) : Bool := c.isAlphanum || c = '_'

/-- Whitespace as recognised by Python `str.strip()` (ASCII fragment). -/
def pyIsSpace (c : Char) : Bool :=
  c = ' ' || c = '\t' || c = '\n' || c = '\r' || c = '\x0b' || c = '\x0c'

/-- Python `s.strip()`: remove leading and trailing whitespace. -/
def pyStrip (s : Str) : Str :=
  ((s.dropWhile pyIsSpace).reverse.dropWhile pyIsSpace).reverse

/-- Python `s[a:b]` for nonnegative clamped indices expressed as naturals. -/
def sliceNat (s : Str) (a b : Nat) : Str := (s.take b).drop a

/-- Python `s[a:b]` slice semantics for arbitrary integer bounds
(negative indices count from the end, everything is clamped). -/
def pySlice (s : Str) (a b : Int) : Str :=
  let n : Int := s.length
  let ia : Int := if a < 0 then max 0 (n + a) else min a n
  let ib : Int := if b < 0 then max 0 (n + b) else min b n
  (s.take ib.toNat).drop ia.toNat

/-- Boolean test that the second list is a prefix of the first
(arguments: haystack, needle). -/
def startsWithB : Str → Str → Bool
  | _, [] => true
  | [], _ :: _ => false
  | h :: t, n :: ns => h = n && startsWithB t ns

/-- Python `needle in hay` substring containment (case-sensitive). -/
def containsSubStr (needle : Str) : Str → Bool
  | [] => needle.isEmpty
  | c :: rest => startsWithB (c :: rest) needle || containsSubStr needle rest

/-- Uppercase a Python string (ASCII `str.upper()`). -/
def toUpperStr (s : Str) : Str := s.map Char.toUpper

/-- Python `a or b` for optional strings: `None` and `""` are falsy. -/
def pyOrStr (a b : Option Str) : Option Str :=
  match a with
  | some s => if s.isEmpty then b else some s
  | none => b

/-- Python `a or b` for optional rationals: `None` and `0.0` are falsy. -/
def pyOrQ (a b : Option ℚ) : Option ℚ :=
  match a with
  | some x => if x = 0 then b else some x
  | none => b

/-- Python `a or d` coalescing an optional rational to a rational
(`None` and `0.0` are falsy, so they yield the default). -/
def pyOrQF (a : Option ℚ) (d : ℚ) : ℚ :=
  match a with
  | some x => if x = 0 then d else x
  | none => d

/-- Numeric value of an ASCII digit character. -/
def digitVal (c : Char) : Nat := c.toNat - 48

/-- Natural number denoted by a list of ASCII digits. -/
def natOfDigits (s : Str) : Nat := s.foldl (fun a c => a * 10 + digitVal c) 0

/-- Gregorian leap year test, as in Python `datetime`. -/
def isLeapYear (y : Nat) : Bool := y % 4 = 0 && (y % 100 ≠ 0 || y % 400 = 0)

/-- Number of days in a month, as validated by Python `datetime`. -/
def daysInMonth (y m : Nat) : Nat :=
  if m = 2 then (if isLeapYear y then 29 else 28)
  else if m = 4 || m = 6 || m = 9 || m = 11 then 30
  else 31

/-- Parse a `YYYY-MM-DD` date string into the comparison key
`y*10000 + m*100 + d`, validating ranges exactly as Python
`datetime.fromisoformat` / `strptime("%Y-%m-%d")` do for date-only
strings (the only date shape appearing in SEC facts documents).
Returns `none` when the string is not a valid date in that format. -/
def parseIsoDate : Str → Option Nat
  | [y1, y2, y3, y4, s1, m1, m2, s2, d1, d2] =>
    if y1.isDigit && y2.isDigit && y3.isDigit && y4.isDigit && s1 = '-' &&
       m1.isDigit && m2.isDigit && s2 = '-' && d1.isDigit && d2.isDigit then
      let y := natOfDigits [y1, y2, y3, y4]
      let m := natOfDigits [m1, m2]
      let d := natOfDigits [d1, d2]
      if 1 ≤ y && 1 ≤ m && m ≤ 12 && 1 ≤ d && d ≤ daysInMonth y m then
        some (y * 10000 + m * 100 + d)
      else none
    else none
  | _ => none

/-- One reported fact item of a companyfacts document
(`end`, `filed`, `form`, `frame` keys may be absent; `val` is the
numeric value, absent when the item has no `"val"` key). -/
structure FactItem where
  end_ : Option Str
  filed : Option Str
  form : Option Str
  frame : Option Str
  val : Option ℚ
deriving DecidableEq

/-- Date comparison key of an item, embedding
`end = item.get("end") or item.get("filed") or "0001-01-01"` followed by
the `fromisoformat` / `strptime` / `datetime(1, 1, 1)` fallback chain of
`_latest_unit_item.key`; `datetime(1, 1, 1)` encodes as `10101`. -/
def dateKeyOfItem (it : FactItem) : Nat :=
  let e := (pyOrStr it.end_ (pyOrStr it.filed (some ("0001-01-01".toList)))).getD []
  match parseIsoDate e with
  | some k => k
  | none => 10101

/-- Embedding of `frame_rank` from `_latest_unit_item` in
`apps/api/core/xbrl_client.py`: rank of an item's frame label under a
frame-preference policy; `None` and `""` frames rank 3 (worst). -/
def frame_rank (frame_preference : String) (frame : Option Str) : Nat :=
  match frame with
  | none => 3
  | some f0 =>
    if f0.isEmpty then 3
    else
      let f := toUpperStr f0
      if frame_preference = "YTD" then
        if containsSubStr ("YTD".toList) f && containsSubStr ("Q".toList) f then 0
        else if containsSubStr ("QTD".toList) f ||
                (containsSubStr ("Q".toList) f && containsSubStr ("QTD".toList) f) then 1
        else if containsSubStr ("FY".toList) f || containsSubStr ("CY".toList) f then 2
        else 3
      else if frame_preference = "QTD" then
        if containsSubStr ("QTD".toList) f ||
           (containsSubStr ("Q".toList) f && containsSubStr ("QTD".toList) f) then 0
        else if containsSubStr ("YTD".toList) f && containsSubStr ("Q".toList) f then 1
        else if containsSubStr ("FY".toList) f || containsSubStr ("CY".toList) f then 2
        else 3
      else if frame_preference = "FY" then
        if containsSubStr ("FY".toList) f || containsSubStr ("CY".toList) f then 0
        else if containsSubStr ("YTD".toList) f && containsSubStr ("Q".toList) f then 1
        else if containsSubStr ("QTD".toList) f || containsSubStr ("Q".toList) f then 2
        else 3
      else
        if containsSubStr ("Q".toList) f && containsSubStr ("YTD".toList) f then 0
        else if containsSubStr ("QTD".toList) f || containsSubStr ("Q".toList) f then 1
        else if containsSubStr ("FY".toList) f || containsSubStr ("CY".toList) f then 2
        else 3

/-- Embedding of the `key` closure of `_latest_unit_item`: the sort key
`(date, form_score, frame_score)` of an item, where later dates, 10-Q/10-K
forms, and better (lower) frame ranks give larger keys. When
`prefer_quarterly` is false the frame rank is held constant at 2. -/
def itemKey (prefer_quarterly : Bool) (frame_preference : String) (it : FactItem) :
    Nat × Nat × Nat :=
  let dt := dateKeyOfItem it
  let form := toUpperStr (it.form.getD [])
  let form_rank := if form = "10-Q".toList || form = "10-K".toList then 0 else 1
  let fr_rank := if prefer_quarterly then frame_rank frame_preference it.frame else 2
  (dt, 1 - form_rank, 100 - fr_rank)

/-- Lexicographic order on sort keys, as Python compares tuples of
`(datetime, int, int)`. -/
def keyLe (a b : Nat × Nat × Nat) : Bool :=
  a.1 < b.1 || (a.1 = b.1 && (a.2.1 < b.2.1 || (a.2.1 = b.2.1 && a.2.2 ≤ b.2.2)))

/-- Stable descending insertion: place `x` before the first element whose
key is at most `x`'s key (so, among equal keys, earlier input elements
stay first). -/
def insertDesc (key : FactItem → Nat × Nat × Nat) (x : FactItem) :
    List FactItem → List FactItem
  | [] => [x]
  | y :: ys => if keyLe (key y) (key x) then x :: y :: ys else y :: insertDesc key x ys

/-- Stable descending sort, modelling Python `sorted(items, key=key, reverse=True)`
(which is stable and keeps equal-key elements in input order). -/
def sortDesc (key : FactItem → Nat × Nat × Nat) : List FactItem → List FactItem
  | [] => []
  | x :: xs => insertDesc key x (sortDesc key xs)

/-- Embedding of `_latest_unit_item` from `apps/api/core/xbrl_client.py`:
return `None` for an empty list, otherwise the head of the stable
descending sort by `itemKey`. -/
def latest_unit_item (items : List FactItem) (prefer_quarterly : Bool)
    (frame_preference : String) : Option FactItem :=
  if items.isEmpty then none
  else (sortDesc (itemKey prefer_quarterly frame_preference) items).head?

/-- Specification-side function: the first occurrence of a key-maximal
element of `x :: xs` (leftmost element wins every exact key tie). -/
def firstMaxBy (key : FactItem → Nat × Nat × Nat) : FactItem → List FactItem → FactItem
  | x, [] => x
  | x, y :: ys =>
    let m := firstMaxBy key y ys
    if keyLe (key m) (key x) then x else m

/-- First-match association-list lookup, modelling Python `dict.get`
(dict keys are unique, so first match is the match). -/
def dictGet {α : Type} (m : List (String × α)) (k : String) : Option α :=
  match m with
  | [] => none
  | (k2, v) :: t => if k2 = k then some v else dictGet t k

/-- Data stored under one tag of a companyfacts document: the `"units"`
member, mapping a unit label to the list of reported items. The real tag
dicts also carry `label`/`description` members and are therefore never
falsy when present. -/
structure TagData where
  units : List (String × List FactItem)
deriving DecidableEq

/-- The `"facts"` member of a companyfacts document:
taxonomy → tag → tag data. -/
abbrev Facts := List (String × List (String × TagData))

/-- A companyfacts document, carrying its `"facts"` member. -/
structure CompanyFacts where
  facts : Facts
deriving DecidableEq

/-- Unit-preference loop of `_get_fact`: for each preferred unit label in
order, skip missing or empty item lists, select the latest item, and
return its value when the item has a `"val"` key (values are numeric in
the model, so the `float(...)` conversion never raises). -/
def unitLoopVal (units : List (String × List FactItem)) (prefer_quarterly : Bool)
    (frame_preference : String) : List String → Option ℚ
  | [] => none
  | u :: rest =>
    match dictGet units u with
    | none => unitLoopVal units prefer_quarterly frame_preference rest
    | some lst =>
      if lst.isEmpty then unitLoopVal units prefer_quarterly frame_preference rest
      else
        match latest_unit_item lst prefer_quarterly frame_preference with
        | some it =>
          match it.val with
          | some v => some v
          | none => unitLoopVal units prefer_quarterly frame_preference rest
        | none => unitLoopVal units prefer_quarterly frame_preference rest

/-- Embedding of `_get_fact` from `apps/api/core/xbrl_client.py`: most
recent numeric value for a tag in the first preferred unit that has data. -/
def get_fact (facts : Facts) (taxonomy tag : String) (units_preference : List String)
    (prefer_quarterly : Bool) (frame_preference : String) : Option ℚ :=
  match dictGet ((dictGet facts taxonomy).getD []) tag with
  | none => none
  | some t => unitLoopVal t.units prefer_quarterly frame_preference units_preference

/-- Unit-preference loop of `_get_fact_with_item`, also returning the
chosen item and unit label. -/
def unitLoopItem (units : List (String × List FactItem)) (prefer_quarterly : Bool)
    (frame_preference : String) :
    List String → Option ℚ × Option FactItem × Option String
  | [] => (none, none, none)
  | u :: rest =>
    match dictGet units u with
    | none => unitLoopItem units prefer_quarterly frame_preference rest
    | some lst =>
      if lst.isEmpty then unitLoopItem units prefer_quarterly frame_preference rest
      else
        match latest_unit_item lst prefer_quarterly frame_preference with
        | some it =>
          match it.val with
          | some v => (some v, some it, some u)
          | none => unitLoopItem units prefer_quarterly frame_preference rest
        | none => unitLoopItem units prefer_quarterly frame_preference rest

/-- Embedding of `_get_fact_with_item` from `apps/api/core/xbrl_client.py`:
like `get_fact` but also returns the chosen item metadata and unit label. -/
def get_fact_with_item (facts : Facts) (taxonomy tag : String)
    (units_preference : List String) (prefer_quarterly : Bool)
    (frame_preference : String) : Option ℚ × Option FactItem × Option String :=
  match dictGet ((dictGet facts taxonomy).getD []) tag with
  | none => (none, none, none)
  | some t => unitLoopItem t.units prefer_quarterly frame_preference units_preference

/-- Normalized metric snapshot returned by the facts parsers
(all monetary fields in millions, shares in millions of shares). -/
structure Metrics where
  ebitda : Option ℚ
  net_debt : Option ℚ
  net_income : Option ℚ
  shareholder_equity : Option ℚ
  interest_expense : Option ℚ
  total_assets : Option ℚ
  shares_outstanding : Option ℚ
  cash : Option ℚ
  total_debt : Option ℚ
deriving DecidableEq

/-- Embedding of `parse_core_metrics` from `apps/api/core/xbrl_client.py`.
Python `or` chains appear as `pyOrQ`/`pyOrQF` (so a selected `0.0` is
falsy), and `debt_current`, `debt_longterm`, `cash`, `total_debt` are
plain floats defaulted to `0.0`, making `net_debt` always non-`None`. -/
def parse_core_metrics (companyfacts : CompanyFacts) (flow_frame_pref : String) :
    Metrics :=
  let facts := companyfacts.facts
  let usd := fun (tag : String) (prefer_quarterly : Bool) (frame_pref : String) =>
    (get_fact facts "us-gaap" tag ["USD"] prefer_quarterly frame_pref).map
      (fun v => v / 1000000)
  let net_income := usd "NetIncomeLoss" true flow_frame_pref
  let interest_expense := usd "InterestExpense" true flow_frame_pref
  let shareholder_equity :=
    pyOrQ (usd "StockholdersEquityIncludingPortionAttributableToNoncontrollingInterest"
             true "ANY")
      (usd "StockholdersEquity" true "ANY")
  let total_assets := usd "Assets" false "ANY"
  let debt_current : ℚ := pyOrQF (usd "DebtCurrent" false "ANY") 0
  let debt_longterm : ℚ :=
    pyOrQF (pyOrQ (usd "LongTermDebtNoncurrent" true "ANY")
              (usd "LongTermDebt" false "ANY")) 0
  let total_debt : ℚ :=
    (if debt_current = 0 then 0 else debt_current) +
      (if debt_longterm = 0 then 0 else debt_longterm)
  let cash : ℚ := pyOrQF (usd "CashAndCashEquivalentsAtCarryingValue" false "ANY") 0
  let net_debt : Option ℚ := some (total_debt - cash)
  let operating_income := usd "OperatingIncomeLoss" true flow_frame_pref
  let dda := usd "DepreciationDepletionAndAmortization" true flow_frame_pref
  let ebitda : Option ℚ :=
    match operating_income, dda with
    | some oi, some da => some (oi + da)
    | _, _ => none
  let shares : Option ℚ :=
    pyOrQ (pyOrQ (get_fact facts "dei" "EntityCommonStockSharesOutstanding"
                    ["shares"] true "ANY")
             (get_fact facts "us-gaap" "CommonStockSharesOutstanding"
                ["shares"] true "ANY"))
      none
  let shares_outstanding := shares.map (fun v => v / 1000000)
  { ebitda := ebitda
    net_debt := net_debt
    net_income := net_income
    shareholder_equity := shareholder_equity
    interest_expense := interest_expense
    total_assets := total_assets
    shares_outstanding := shares_outstanding
    cash := some cash
    total_debt := some total_debt }

/-- Provenance record built by the `meta` helper of
`parse_core_metrics_with_meta`. -/
structure MetaEntry where
  form : Option Str
  end_ : Option Str
  frame : Option Str
  filed : Option Str
  unit : Option String
  raw_value : Option ℚ
deriving DecidableEq

/-- Embedding of the `meta` helper: `None` for a missing item, otherwise
the provenance record. -/
def metaOf (item : Option FactItem) (unit : Option String) (raw : Option ℚ) :
    Option MetaEntry :=
  match item with
  | none => none
  | some it =>
    some { form := it.form, end_ := it.end_, frame := it.frame, filed := it.filed,
           unit := unit, raw_value := raw }

/-- Per-field provenance map returned by `parse_core_metrics_with_meta`. -/
structure Details where
  net_income : Option MetaEntry
  interest_expense : Option MetaEntry
  shareholder_equity : Option MetaEntry
  total_assets : Option MetaEntry
  debt_current : Option MetaEntry
  debt_longterm : Option MetaEntry
  total_debt : Option MetaEntry
  cash : Option MetaEntry
  operating_income : Option MetaEntry
  dda : Option MetaEntry
  ebitda : Option MetaEntry
  shares_outstanding : Option MetaEntry
deriving DecidableEq

/-- Embedding of `parse_core_metrics_with_meta` from
`apps/api/core/xbrl_client.py`: metrics in millions plus per-tag
provenance. Unlike `parse_core_metrics`, missing-vs-present tests here use
`is None`, debt/cash totals are `None`-propagating, and every selector
call passes `flow_frame_pref` with an explicit prefer-quarterly flag. -/
def parse_core_metrics_with_meta (companyfacts : CompanyFacts)
    (flow_frame_pref : String) : Metrics × Details :=
  let facts := companyfacts.facts
  let usd_item := fun (tag : String) (prefer_quarterly : Bool) =>
    get_fact_with_item facts "us-gaap" tag ["USD"] prefer_quarterly flow_frame_pref
  let to_millions := fun (v : Option ℚ) => v.map (fun x => x / 1000000)
  let niT := usd_item "NetIncomeLoss" true
  let ieT := usd_item "InterestExpense" true
  let eqT0 :=
    usd_item "StockholdersEquityIncludingPortionAttributableToNoncontrollingInterest"
      false
  let eqT := if eqT0.1 = none then usd_item "StockholdersEquity" false else eqT0
  let asT := usd_item "Assets" false
  let dcT := usd_item "DebtCurrent" false
  let ldT0 := usd_item "LongTermDebtNoncurrent" false
  let ldT := if ldT0.1 = none then usd_item "LongTermDebt" false else ldT0
  let td_v : Option ℚ :=
    if dcT.1.isSome || ldT.1.isSome then some (pyOrQF dcT.1 0 + pyOrQF ldT.1 0)
    else none
  let td_item : Option FactItem :=
    match ldT.2.1 with
    | some it => some it
    | none => dcT.2.1
  let td_unit : Option String :=
    match ldT.2.2 with
    | some u => some u
    | none => dcT.2.2
  let caT := usd_item "CashAndCashEquivalentsAtCarryingValue" false
  let nd_v : Option ℚ :=
    match td_v with
    | some td => some (td - pyOrQF caT.1 0)
    | none => none
  let oiT := usd_item "OperatingIncomeLoss" true
  let daT := usd_item "DepreciationDepletionAndAmortization" true
  let eb_v : Option ℚ :=
    match oiT.1, daT.1 with
    | some oi, some da => some (oi + da)
    | _, _ => none
  let shT0 := get_fact_with_item facts "dei" "EntityCommonStockSharesOutstanding"
    ["shares"] true "ANY"
  let shT := if shT0.1 = none then
      get_fact_with_item facts "us-gaap" "CommonStockSharesOutstanding"
        ["shares"] true "ANY"
    else shT0
  let metrics : Metrics :=
    { ebitda := to_millions eb_v
      net_debt := to_millions nd_v
      net_income := to_millions niT.1
      shareholder_equity := to_millions eqT.1
      interest_expense := to_millions ieT.1
      total_assets := to_millions asT.1
      shares_outstanding := shT.1.map (fun v => v / 1000000)
      cash := to_millions caT.1
      total_debt := to_millions td_v }
  let details : Details :=
    { net_income := metaOf niT.2.1 niT.2.2 niT.1
      interest_expense := metaOf ieT.2.1 ieT.2.2 ieT.1
      shareholder_equity := metaOf eqT.2.1 eqT.2.2 eqT.1
      total_assets := metaOf asT.2.1 asT.2.2 asT.1
      debt_current := metaOf dcT.2.1 dcT.2.2 dcT.1
      debt_longterm := metaOf ldT.2.1 ldT.2.2 ldT.1
      total_debt := metaOf td_item td_unit td_v
      cash := metaOf caT.2.1 caT.2.2 caT.1
      operating_income := metaOf oiT.2.1 oiT.2.2 oiT.1
      dda := metaOf daT.2.1 daT.2.2 daT.1
      ebitda := metaOf oiT.2.1 (some "USD+USD") eb_v
      shares_outstanding := metaOf shT.2.1 shT.2.2 shT.1 }
  (metrics, details)

/-- Embedding of the `Citation` model of `apps/api/cite.py`. -/
structure Citation where
  doc_id : Str
  page : Int
  span : Int × Int
  text_preview : Str
deriving DecidableEq

/-- Embedding of `create_citation_from_match` from `apps/api/cite.py`:
build a preview window of `context_chars // 2` characters around the
match, strip surrounding whitespace, and shift the span by the window
start. -/
def create_citation_from_match (doc_id : Str) (page : Int) (text : Str)
    (start_pos end_pos : Int) (context_chars : Int) : Citation :=
  let preview_start : Int := max 0 (start_pos - context_chars.fdiv 2)
  let preview_end : Int := min (text.length : Int) (end_pos + context_chars.fdiv 2)
  let preview := pyStrip (pySlice text preview_start preview_end)
  let adjusted_span : Int × Int := (start_pos - preview_start, end_pos - preview_start)
  { doc_id := doc_id, page := page, span := adjusted_span, text_preview := preview }

/-- Whole-word occurrence scanner for a fixed word `needle` (all of whose
characters are word characters): true when `needle` occurs in the scanned
text with no word character immediately before or after, `prev` being the
character preceding the scanned text. Models `re.search` of
`\bneedle\b`. -/
def containsWWAux (needle : Str) : Option Char → Str → Bool
  | _, [] => false
  | prev, c :: rest =>
    ((match prev with
      | none => true
      | some p => !isWordChar p) &&
     startsWithB (c :: rest) needle &&
     (match (c :: rest).drop needle.length with
      | [] => true
      | d :: _ => !isWordChar d)) ||
    containsWWAux needle (some c) rest

/-- Whole-word containment of a fixed word in a text. -/
def containsWW (needle : String) (hay : Str) : Bool :=
  containsWWAux needle.toList none hay

/-- Occurrence of `needle` followed by a word boundary (no boundary
required before), modelling `re.search` of `\$mm\b` where the needle
starts with a non-word character. -/
def containsSubBoundAfter (needle : Str) : Str → Bool
  | [] => false
  | c :: rest =>
    (startsWithB (c :: rest) needle &&
     (match (c :: rest).drop needle.length with
      | [] => true
      | d :: _ => !isWordChar d)) ||
    containsSubBoundAfter needle rest

/-- Embedding of `KPIExtractor._infer_scale_multiplier` from
`core/extract.py`: lowercase the text, then test the three fixed regexes
`\bbillion(s)?\b|\bbn\b`, `\bthousand(s)?\b` and
`\bmillion(s)?\b|\bmm\b|\(\$?mm\)|\$mm\b` in order; both the million
branch and the default return 1. Python returns the floats 1000.0,
0.001 and 1.0, modelled exactly as rationals. -/
def infer_scale_multiplier (text : Str) : ℚ :=
  let t := text.map Char.toLower
  if containsWW "billion" t || containsWW "billions" t || containsWW "bn" t then 1000
  else if containsWW "thousand" t || containsWW "thousands" t then 1 / 1000
  else if containsWW "million" t || containsWW "millions" t || containsWW "mm" t ||
          containsSubStr ("(mm)".toList) t || containsSubStr ("($mm)".toList) t ||
          containsSubBoundAfter ("$mm".toList) t then 1
  else 1

/-- Embedding of `re.sub(r'[\$,]', '', s)`: drop every dollar sign and
comma. -/
def pyRemoveDollarComma (s : Str) : Str := s.filter (fun c => c ≠ '$' && c ≠ ',')

/-- Split off the leading run of ASCII digits. -/
def takeDigits (s : Str) : Str × Str := (s.takeWhile Char.isDigit, s.dropWhile Char.isDigit)

/-- Value of Python `float(s)` on a finite decimal literal with optional
sign, fraction and exponent (the only shapes produced by the extractor's
regexes and mapping files); `none` models a `ValueError`. Non-finite
literals (`inf`, `nan`) and underscore separators are outside the model. -/
def pyFloatQ (s0 : Str) : Option ℚ :=
  let s1 := pyStrip s0
  let signed : ℚ × Str :=
    match s1 with
    | '+' :: t => (1, t)
    | '-' :: t => (-1, t)
    | t => (1, t)
  let sign := signed.1
  let ipSplit := takeDigits signed.2
  let ip := ipSplit.1
  let fracSplit : Str × Str :=
    match ipSplit.2 with
    | '.' :: t => takeDigits t
    | _ => ([], [])
  let fp := fracSplit.1
  let rest : Str :=
    match ipSplit.2 with
    | '.' :: _ => fracSplit.2
    | r => r
  if ip.isEmpty && fp.isEmpty then none
  else
    let mant : ℚ := (natOfDigits ip : ℚ) + (natOfDigits fp : ℚ) / ((10 : ℚ) ^ fp.length)
    match rest with
    | [] => some (sign * mant)
    | e :: t =>
      if e = 'e' || e = 'E' then
        let esigned : Int × Str :=
          match t with
          | '+' :: u => (1, u)
          | '-' :: u => (-1, u)
          | u => (1, u)
        let edSplit := takeDigits esigned.2
        if edSplit.1.isEmpty || !edSplit.2.isEmpty then none
        else some (sign * mant * (10 : ℚ) ^ (esigned.1 * (natOfDigits edSplit.1 : Int)))
      else none

/-- Match of the number regex at the start of `s` (whose head must be a
digit with a word boundary before it, checked by the caller), returning
the matched token. With `capped = true` this is
`\b\d{1,3}(?:,\d{3})*(?:\.\d+)?\b` — the input is always comma-stripped
when this runs, so the `(?:,\d{3})*` part matches emptily and a digit run
longer than 3 can never satisfy the trailing boundary; with
`capped = false` it is `\b\d+(?:\.\d+)?\b`. The fraction part backtracks
to empty (boundary at the dot) when its trailing boundary fails. -/
def matchNumHere (capped : Bool) (s : Str) : Option Str :=
  let ds := takeDigits s
  if ds.1.isEmpty then none
  else if capped && decide (ds.1.length > 3) then none
  else
    match ds.2 with
    | '.' :: t =>
      let fs := takeDigits t
      if fs.1.isEmpty then some ds.1
      else
        match fs.2 with
        | [] => some (ds.1 ++ '.' :: fs.1)
        | c :: _ => if isWordChar c then some ds.1 else some (ds.1 ++ '.' :: fs.1)
    | [] => some ds.1
    | c :: _ => if isWordChar c then none else some ds.1

/-- Scanner of `re.findall` for the number regexes of
`_extract_numeric_value`: walk the text left to right carrying the
previous character, try a match at every digit position that has a word
boundary before it, and continue after each (non-overlapping) match; a
matched token is nonempty, so resuming after it drops
`tok.length - 1` characters beyond the head. -/
def findallNums (capped : Bool) : Option Char → Str → List Str
  | _, [] => []
  | prev, c :: rest =>
    let startOk : Bool :=
      match prev with
      | none => true
      | some p => !isWordChar p
    if startOk && c.isDigit then
      match matchNumHere capped (c :: rest) with
      | some tok =>
        tok :: findallNums capped (some (tok.getLastD '0')) (rest.drop (tok.length - 1))
      | none => findallNums capped (some c) rest
    else findallNums capped (some c) rest
termination_by _ s => s.length
decreasing_by
  all_goals simp_wf
  all_goals omega

/-- Embedding of `KPIExtractor._extract_numeric_value` from
`core/extract.py`: strip `$` and `,`, collect the matches of both number
regexes, parse them as floats, keep values at least 100, and return the
largest (or `None`). -/
def extract_numeric_value (text : Str) : Option ℚ :=
  let cleaned := pyRemoveDollarComma text
  let all_matches := findallNums true none cleaned ++ findallNums false none cleaned
  let valid_values :=
    (all_matches.filterMap (fun m => pyFloatQ (m.filter (fun c => c ≠ ',')))).filter
      (fun v => 100 ≤ v)
  match valid_values with
  | [] => none
  | v :: vs => some (vs.foldl max v)

/-- Result of a Python `regex.search`: match start character offset, end
character offset, and the captured groups (`group(1)`, `group(2)`, …;
`none` for a group that did not participate). `group(0)` is the content
slice between `start` and `end_`. -/
structure ReMatch where
  start : Nat
  end_ : Nat
  groups : List (Option Str)
deriving DecidableEq

/-- Oracle modelling Python `re.compile(pattern, re.IGNORECASE | re.MULTILINE)`
followed by `.search(content)`: an error models a regex compile failure or
an exception raised during matching, `ok none` a failed search, and
`ok (some m)` the first match. Being a function, the oracle is
deterministic: repeated searches of the same pattern over the same
content give the same result, as in Python. -/
structure ReOracle where
  compileSearch : Str → Str → Except Str (Option ReMatch)

/-- Extraction result for one KPI, embedding the `ExtractedKPI` pydantic
model of `core/extract.py`. -/
structure ExtractedKPI where
  value : ℚ
  unit : Str
  citation : Citation
deriving DecidableEq

/-- Configuration of one KPI from the mappings file, with the defaults of
`config.get('patterns', [])`, `config.get('unit', '')`,
`config.get('prefer', '')`, `config.get('normalize', '')` already
applied. -/
structure KPIConfig where
  patterns : List Str
  unit : Str
  prefer : Str
  normalize : Str
deriving DecidableEq

/-- Embedding of `KPIExtractor._extract_single_kpi` from
`core/extract.py`. The whole body is wrapped in `try/except` in Python:
an oracle error (compile failure or matching exception) yields
`(None, None)`, as does a first capture group that did not participate
(whose `re.sub(..., None)` raises a `TypeError` caught by the same
handler). A `float` parse failure of group 1 falls back to
`extract_numeric_value` on the whole match text. The
`normalize == 'strip_commas'` branch is a no-op in the source. -/
def extract_single_kpi (o : ReOracle) (content pattern doc_id unit normalize : Str) :
    Option ℚ × Option Citation :=
  match o.compileSearch pattern content with
  | Except.error _ => (none, none)
  | Except.ok none => (none, none)
  | Except.ok (some m) =>
    let match_text := sliceNat content m.start m.end_
    let value : Option ℚ :=
      match m.groups with
      | [] => extract_numeric_value match_text
      | g1 :: _ =>
        match g1 with
        | none => none
        | some raw_val =>
          let cleaned := pyRemoveDollarComma raw_val
          match pyFloatQ (cleaned.filter (fun c => c ≠ ',')) with
          | some v => some v
          | none => extract_numeric_value match_text
    match value with
    | none => (none, none)
    | some v0 =>
      let v := v0 * infer_scale_multiplier match_text
      let citation :=
        create_citation_from_match doc_id 1 content (m.start : Int) (m.end_ : Int) 100
      (some v, some citation)

/-- Per-KPI pattern loop of `KPIExtractor.extract_from_file` from
`core/extract.py`, carrying the `(best_match, best_value, best_citation)`
state. A preferred match (`prefer` nonempty, found in the re-searched
match's `group(0)`) is used immediately; the first non-preferred
value-yielding pattern is held as fallback; with no preference the first
value wins. After the loop, the fallback is used only when `best_match`
is truthy (a nonempty pattern string). The unreachable `none` arms mirror
that `extract_single_kpi` returns value and citation together; likewise
the error arm of the preference re-search is dead, since a value-yielding
pattern already searched successfully and the oracle is a function. -/
def kpiLoop (o : ReOracle) (content doc_id unit prefer normalize : Str) :
    List Str → Option Str × Option ℚ × Option Citation → Option ExtractedKPI
  | [], st =>
    match st with
    | (none, _, _) => none
    | (some bp, bv, bc) =>
      if bp.isEmpty then none
      else
        match bv, bc with
        | some v, some c => some { value := v, unit := unit, citation := c }
        | _, _ => none
  | p :: rest, st =>
    match extract_single_kpi o content p doc_id unit normalize with
    | (none, _) => kpiLoop o content doc_id unit prefer normalize rest st
    | (some v, citation) =>
      if prefer.isEmpty then
        match citation with
        | some cit => some { value := v, unit := unit, citation := cit }
        | none => none
      else
        let pref_hit : Bool :=
          match o.compileSearch p content with
          | Except.ok (some m) => containsSubStr prefer (sliceNat content m.start m.end_)
          | _ => false
        if pref_hit then
          match citation with
          | some cit => some { value := v, unit := unit, citation := cit }
          | none => none
        else
          match st with
          | (none, _, _) =>
            kpiLoop o content doc_id unit prefer normalize rest (some p, some v, citation)
          | (some _, _, _) => kpiLoop o content doc_id unit prefer normalize rest st

/-- Processing of one KPI configuration by `extract_from_file`: run the
pattern loop from the empty state; the result is the entry stored in
`extracted_kpis` for this KPI (or `none` when nothing is stored). -/
def processKPIConfig (o : ReOracle) (content doc_id : Str) (cfg : KPIConfig) :
    Option ExtractedKPI :=
  kpiLoop o content doc_id cfg.unit cfg.prefer cfg.normalize cfg.patterns
    (none, none, none)

/-- Embedding of `KPIExtractor.extract_from_file` from `core/extract.py`
over an already-read document content: an unknown ticker raises
`ValueError` before any KPI is processed; otherwise each configured KPI
contributes at most one entry, in configuration order (mapping keys are
unique, as in a Python dict). -/
def extract_from_file (o : ReOracle) (mappings : List (String × List (String × KPIConfig)))
    (content doc_id : Str) (ticker : String) :
    Except Str (List (String × ExtractedKPI)) :=
  match dictGet mappings ticker with
  | none => Except.error (("No mappings found for ticker: " ++ ticker).toList)
  | some ticker_mappings =>
    Except.ok
      (ticker_mappings.foldl
        (fun acc kv =>
          match processKPIConfig o content doc_id kv.2 with
          | some k => acc ++ [(kv.1, k)]
          | none => acc)
        [])

/-- Specification-side view of one pattern: does `extract_single_kpi`
yield a value for it? -/
def yieldsValue (o : ReOracle) (content doc_id unit normalize : Str) (p : Str) : Bool :=
  (extract_single_kpi o content p doc_id unit normalize).1.isSome

/-- Specification-side view of one pattern: does it yield a value whose
re-searched match text contains the preferred substring (case-sensitive
containment)? -/
def isPreferredPattern (o : ReOracle) (content doc_id unit normalize prefer : Str)
    (p : Str) : Bool :=
  (extract_single_kpi o content p doc_id unit normalize).1.isSome &&
    (match o.compileSearch p content with
     | Except.ok (some m) => containsSubStr prefer (sliceNat content m.start m.end_)
     | _ => false)

/-- Specification-side KPI built from one pattern's extraction result. -/
def mkKPI (o : ReOracle) (content doc_id unit normalize : Str) (p : Str) :
    Option ExtractedKPI :=
  match extract_single_kpi o content p doc_id unit normalize with
  | (some v, some c) => some { value := v, unit := unit, citation := c }
  | _ => none

/-- Specification-side description of the per-KPI selection: with no
preference configured, the first value-yielding pattern wins; otherwise
the first preferred pattern wins, else the first value-yielding pattern
is used as fallback — unless that fallback pattern is the empty string,
which Python's truthiness test on `best_match` discards (an empty pattern
never yields a value under real regex semantics, since its match text is
empty). -/
def kpiSpec (o : ReOracle) (content doc_id unit prefer normalize : Str)
    (ps : List Str) : Option ExtractedKPI :=
  if prefer.isEmpty then
    match ps.find? (yieldsValue o content doc_id unit normalize) with
    | some p => mkKPI o content doc_id unit normalize p
    | none => none
  else
    match ps.find? (isPreferredPattern o content doc_id unit normalize prefer) with
    | some p => mkKPI o content doc_id unit normalize p
    | none =>
      match ps.find? (yieldsValue o content doc_id unit normalize) with
      | some q => if q.isEmpty then none else mkKPI o content doc_id unit normalize q
      | none => none

/-- Boundary test for the character preceding a whole-word occurrence. -/
def boundaryB (prev : Option Char) : Bool :=
  match prev with
  | none => true
  | some p => !isWordChar p

/-- Boundary test for the text following a whole-word occurrence. -/
def afterB (post : Str) : Bool :=
  match post with
  | [] => true
  | d :: _ => !isWordChar d

/-- Character immediately preceding an occurrence that follows `pre`,
falling back to the character preceding the scanned text. -/
def lastOr (prev : Option Char) (pre : Str) : Option Char :=
  match pre.getLast? with
  | some c => some c
  | none => prev

/-- Specification-side whole-word occurrence: the word appears with no
word character adjacent on either side. -/
def wholeWordOccurrence (w : Str) (t : Str) : Prop :=
  ∃ pre post, t = pre ++ w ++ post ∧
    (pre = [] ∨ ∃ c, pre.getLast? = some c ∧ isWordChar c = false) ∧
    (post = [] ∨ ∃ c, post.head? = some c ∧ isWordChar c = false)

/-- Case-insensitive whole-word presence of a (lowercase) word in a text,
the specification-side reading of `re.search` over the lowercased text. -/
def hasWholeWordCI (w : String) (t : Str) : Prop :=
  wholeWordOccurrence w.toList (t.map Char.toLower)

/-- Concrete QTD item of the frame-policy example: frame `CY2024Q2QTD`,
value 200,000,000, a 10-Q dated 2024-06-30. -/
def itemQ2QTD : FactItem :=
  { end_ := some ("2024-06-30".toList), filed := some ("2024-08-01".toList),
    form := some ("10-Q".toList), frame := some ("CY2024Q2QTD".toList),
    val := some 200000000 }

/-- Concrete YTD item of the frame-policy example: frame `CY2024Q2YTD`,
value 600,000,000, same date and form as `itemQ2QTD`. -/
def itemQ2YTD : FactItem :=
  { end_ := some ("2024-06-30".toList), filed := some ("2024-08-01".toList),
    form := some ("10-Q".toList), frame := some ("CY2024Q2YTD".toList),
    val := some 600000000 }

/-- A 10-Q balance-sheet style item with a given value and no frame. -/
def plainItem (v : ℚ) : FactItem :=
  { end_ := some ("2024-06-30".toList), filed := some ("2024-08-01".toList),
    form := some ("10-Q".toList), frame := none, val := some v }

/-- Facts document containing only a cash fact of 500,000,000 USD
(no debt facts at all). -/
def cashOnlyDoc : CompanyFacts :=
  { facts :=
      [("us-gaap",
        [("CashAndCashEquivalentsAtCarryingValue",
          { units := [("USD", [plainItem 500000000])] })])] }

/-- Facts document with a current-debt fact of 2,000,000,000 USD and a
cash fact of 500,000,000 USD, and no long-term-debt facts. -/
def debtCashDoc : CompanyFacts :=
  { facts :=
      [("us-gaap",
        [("DebtCurrent", { units := [("USD", [plainItem 2000000000])] }),
         ("CashAndCashEquivalentsAtCarryingValue",
          { units := [("USD", [plainItem 500000000])] })])] }

/-- Facts document where the preferred equity tag selects the value 0 and
the fallback equity tag holds 7,000,000,000 USD. -/
def zeroEquityDoc : CompanyFacts :=
  { facts :=
      [("us-gaap",
        [("StockholdersEquityIncludingPortionAttributableToNoncontrollingInterest",
          { units := [("USD", [plainItem 0])] }),
         ("StockholdersEquity",
          { units := [("USD", [plainItem 7000000000])] })])] }

/-- Document text of the case-sensitivity example: an uppercase
occurrence of the preferred word before a mixed-case one. -/
def caseContent : Str := "ADJUSTED EBITDA $500 and Adjusted EBITDA $700".toList

/-- First pattern of the case-sensitivity example. -/
def casePat1 : Str := "ADJUSTED EBITDA \\$([0-9]+)".toList

/-- Second pattern of the case-sensitivity example; the digit constraint
after the dollar sign makes its first case-insensitive match the second,
mixed-case occurrence. -/
def casePat2 : Str := "Adjusted EBITDA \\$(7[0-9]+)".toList

/-- Oracle recording the actual first matches of the two example patterns
over `caseContent` under `re.IGNORECASE | re.MULTILINE`: `casePat1`
matches characters 0–20 capturing `"500"`, `casePat2` matches characters
25–45 capturing `"700"`. -/
def caseOracle : ReOracle :=
  { compileSearch := fun p _ =>
      if p = casePat1 then Except.ok (some { start := 0, end_ := 20, groups := [some ("500".toList)] })
      else if p = casePat2 then Except.ok (some { start := 25, end_ := 45, groups := [some ("700".toList)] })
      else Except.ok none }

/-- KPI configuration of the case-sensitivity example, preferring
matches containing `"Adjusted"`. -/
def caseCfg : KPIConfig :=
  { patterns := [casePat1, casePat2], unit := "CAD millions".toList,
    prefer := "Adjusted".toList, normalize := "strip_commas".toList }

/-- Oracle whose every search raises, modelling a malformed pattern. -/
def failingOracle : ReOracle :=
  { compileSearch := fun _ _ => Except.error ("compile failure".toList) }

attribute [local semireducible] Rat.mul Rat.add Rat.sub Rat.inv Rat.ofScientific

theorem insertDesc_head (key : FactItem → Nat × Nat × Nat) (x y : FactItem)
    (ys : List FactItem) :
    (insertDesc key x (y :: ys)).head? =
      some (if keyLe (key y) (key x) then x else y) := by
  by_cases h : keyLe (key y) (key x) = true <;> simp [insertDesc, h]

theorem sortDesc_cons_head (key : FactItem → Nat × Nat × Nat) (x : FactItem)
    (xs : List FactItem) :
    (sortDesc key (x :: xs)).head? = some (firstMaxBy key x xs) := by
  induction xs generalizing x with
  | nil => simp [sortDesc, insertDesc, firstMaxBy]
  | cons y ys ih =>
    have hy := ih y
    cases hsort : sortDesc key (y :: ys) with
    | nil => simp [hsort] at hy
    | cons z zs =>
      rw [hsort] at hy
      simp only [List.head?] at hy
      have hz : z = firstMaxBy key y ys := Option.some.inj hy
      show (insertDesc key x (sortDesc key (y :: ys))).head? = _
      rw [hsort, insertDesc_head, hz]
      simp [firstMaxBy]

/-- C6: the Selector returns null exactly on the empty list; otherwise it
returns the first occurrence of the item maximal under the lexicographic
key (parsed end date with filed fallback and epoch-minimum default, then
the 10-Q/10-K form score, then the policy frame score), and for non-flow
calls (`prefer_quarterly = false`) the frame score is a constant,
independent of the policy. -/
theorem selector_returns_first_maximal (items : List FactItem) (pq : Bool)
    (fp : String) :
    (latest_unit_item items pq fp =
      match items with
      | [] => none
      | x :: xs => some (firstMaxBy (itemKey pq fp) x xs)) ∧
    (latest_unit_item items pq fp = none ↔ items = []) ∧
    (∀ (fp1 fp2 : String) (it : FactItem), itemKey false fp1 it = itemKey false fp2 it) := by
  have hmain : latest_unit_item items pq fp =
      match items with
      | [] => none
      | x :: xs => some (firstMaxBy (itemKey pq fp) x xs) := by
    cases items with
    | nil => rfl
    | cons x xs =>
      show latest_unit_item (x :: xs) pq fp = some (firstMaxBy (itemKey pq fp) x xs)
      unfold latest_unit_item
      simp [sortDesc_cons_head]
  refine ⟨hmain, ?_, ?_⟩
  · rw [hmain]
    cases items <;> simp
  · intro fp1 fp2 it
    simp [itemKey]

/-- C5: for one tag with a `CY2024Q2QTD` item valued 200,000,000 and a
`CY2024Q2YTD` item valued 600,000,000 (equal dates and forms), the
Selector picks the QTD item under policy QTD, and the YTD item under
policies YTD and ANY. -/
theorem frame_policy_example :
    latest_unit_item [itemQ2QTD, itemQ2YTD] true "QTD" = some itemQ2QTD ∧
    latest_unit_item [itemQ2QTD, itemQ2YTD] true "YTD" = some itemQ2YTD ∧
    latest_unit_item [itemQ2QTD, itemQ2YTD] true "ANY" = some itemQ2YTD := by
  refine ⟨?_, ?_, ?_⟩ <;> decide

theorem pyOrQF_some_zero_default (x : ℚ) : pyOrQF (some x) 0 = x := by
  unfold pyOrQF
  by_cases h : x = 0 <;> simp [h]

theorem unitLoopItem_fst (units : List (String × List FactItem)) (pq : Bool)
    (fp : String) : ∀ l, (unitLoopItem units pq fp l).1 = unitLoopVal units pq fp l := by
  intro l
  induction l with
  | nil => rfl
  | cons u rest ih =>
    simp only [unitLoopItem, unitLoopVal]
    cases hget : dictGet units u with
    | none => simpa [hget] using ih
    | some lst =>
      by_cases hemp : lst.isEmpty
      · simpa [hget, hemp] using ih
      · simp only [hget, hemp, Bool.false_eq_true, if_false]
        cases hlat : latest_unit_item lst pq fp with
        | none => simpa [hlat] using ih
        | some it =>
          cases hval : it.val with
          | none => simpa [hlat, hval] using ih
          | some v => simp [hlat, hval]

theorem get_fact_with_item_fst (facts : Facts) (tax tag : String)
    (prefs : List String) (pq : Bool) (fp : String) :
    (get_fact_with_item facts tax tag prefs pq fp).1 = get_fact facts tax tag prefs pq fp := by
  unfold get_fact_with_item get_fact
  cases dictGet ((dictGet facts tax).getD []) tag with
  | none => rfl
  | some t => exact unitLoopItem_fst t.units pq fp prefs

theorem itemKey_false_const (fp1 fp2 : String) : itemKey false fp1 = itemKey false fp2 :=
  funext fun it => by simp [itemKey]

theorem latest_unit_item_false_frame (l : List FactItem) (fp1 fp2 : String) :
    latest_unit_item l false fp1 = latest_unit_item l false fp2 := by
  unfold latest_unit_item
  rw [itemKey_false_const fp1 fp2]

theorem unitLoopVal_false_frame (units : List (String × List FactItem))
    (fp1 fp2 : String) : ∀ l, unitLoopVal units false fp1 l = unitLoopVal units false fp2 l := by
  intro l
  induction l with
  | nil => rfl
  | cons u rest ih =>
    simp only [unitLoopVal]
    cases hget : dictGet units u with
    | none => simpa [hget] using ih
    | some lst =>
      by_cases hemp : lst.isEmpty
      · simpa [hget, hemp] using ih
      · simp only [hget, hemp, Bool.false_eq_true, if_false,
          latest_unit_item_false_frame lst fp1 fp2]
        cases hlat : latest_unit_item lst false fp2 with
        | none => simpa [hlat] using ih
        | some it =>
          cases hval : it.val with
          | none => simpa [hlat, hval] using ih
          | some v => simp [hlat, hval]

theorem get_fact_false_frame (facts : Facts) (tax tag : String) (prefs : List String)
    (fp1 fp2 : String) :
    get_fact facts tax tag prefs false fp1 = get_fact facts tax tag prefs false fp2 := by
  unfold get_fact
  cases dictGet ((dictGet facts tax).getD []) tag with
  | none => rfl
  | some t => exact unitLoopVal_false_frame t.units fp1 fp2 prefs

theorem get_fact_with_item_false_frame (facts : Facts) (tax tag : String)
    (prefs : List String) (fp1 fp2 : String) :
    (get_fact_with_item facts tax tag prefs false fp1).1 =
      (get_fact_with_item facts tax tag prefs false fp2).1 := by
  rw [get_fact_with_item_fst, get_fact_with_item_fst, get_fact_false_frame]

/-- C3 (amended): the plain parse and the metadata variant agree on
`ebitda`, `net_income`, `interest_expense` and `total_assets` for every
facts document and flow-frame preference. (They do not agree on every
metric: see the counterexample on `net_debt`.) -/
theorem variants_agree_on_flow_metrics (cf : CompanyFacts) (pref : String) :
    (parse_core_metrics cf pref).ebitda =
        (parse_core_metrics_with_meta cf pref).1.ebitda ∧
      (parse_core_metrics cf pref).net_income =
        (parse_core_metrics_with_meta cf pref).1.net_income ∧
      (parse_core_metrics cf pref).interest_expense =
        (parse_core_metrics_with_meta cf pref).1.interest_expense ∧
      (parse_core_metrics cf pref).total_assets =
        (parse_core_metrics_with_meta cf pref).1.total_assets := by
  refine ⟨?_, ?_, ?_, ?_⟩
  · simp only [parse_core_metrics, parse_core_metrics_with_meta, get_fact_with_item_fst]
    cases get_fact cf.facts "us-gaap" "OperatingIncomeLoss" ["USD"] true pref with
    | none => simp
    | some oi =>
      cases get_fact cf.facts "us-gaap" "DepreciationDepletionAndAmortization"
          ["USD"] true pref with
      | none => simp
      | some da => simp [div_add_div_same]
  · simp only [parse_core_metrics, parse_core_metrics_with_meta, get_fact_with_item_fst]
  · simp only [parse_core_metrics, parse_core_metrics_with_meta, get_fact_with_item_fst]
  · simp only [parse_core_metrics, parse_core_metrics_with_meta, get_fact_with_item_fst,
      get_fact_false_frame cf.facts "us-gaap" "Assets" ["USD"] "ANY" pref]

/-- C3 (counterexample): on a facts document holding only a cash fact,
the plain parse computes `net_debt = -500` (debt components defaulted to
zero) while the metadata variant returns null — the two variants do not
agree on every metric value. -/
theorem variants_disagree_on_net_debt :
    (parse_core_metrics cashOnlyDoc "ANY").net_debt = some (-500) ∧
    (parse_core_metrics_with_meta cashOnlyDoc "ANY").1.net_debt = none ∧
    (parse_core_metrics cashOnlyDoc "ANY").net_debt ≠
      (parse_core_metrics_with_meta cashOnlyDoc "ANY").1.net_debt := by
  refine ⟨?_, ?_, ?_⟩ <;> decide

/-- C1 (counterexample): on a facts document with no debt facts and a
cash fact of 500,000,000, the plain parse's `net_debt` is not null — it is
`-500` (million), because `parse_core_metrics` defaults absent debt
components to zero instead of propagating null. -/
theorem net_debt_nullability_counterexample :
    get_fact cashOnlyDoc.facts "us-gaap" "DebtCurrent" ["USD"] false "ANY" = none ∧
    get_fact cashOnlyDoc.facts "us-gaap" "LongTermDebtNoncurrent" ["USD"] true "ANY" =
      none ∧
    get_fact cashOnlyDoc.facts "us-gaap" "LongTermDebt" ["USD"] false "ANY" = none ∧
    get_fact cashOnlyDoc.facts "us-gaap" "CashAndCashEquivalentsAtCarryingValue"
      ["USD"] false "ANY" = some 500000000 ∧
    (parse_core_metrics cashOnlyDoc "ANY").net_debt = some (-500) ∧
    (parse_core_metrics cashOnlyDoc "ANY").net_debt ≠ none := by
  refine ⟨?_, ?_, ?_, ?_, ?_, ?_⟩ <;> decide

/-- C1 (amended): in the metadata variant `parse_core_metrics_with_meta`,
when no long-term-debt fact is selected and a cash fact is selected:
if the current-debt fact is also absent, `net_debt` is null even though
cash is present; and if a current-debt fact is selected, `net_debt`
equals `debt_current/1e6 - cash/1e6`. -/
theorem net_debt_nullability_meta (cf : CompanyFacts) (pref : String) (c : ℚ)
    (hld1 : (get_fact_with_item cf.facts "us-gaap" "LongTermDebtNoncurrent" ["USD"]
      false pref).1 = none)
    (hld2 : (get_fact_with_item cf.facts "us-gaap" "LongTermDebt" ["USD"]
      false pref).1 = none)
    (hca : (get_fact_with_item cf.facts "us-gaap"
      "CashAndCashEquivalentsAtCarryingValue" ["USD"] false pref).1 = some c) :
    ((get_fact_with_item cf.facts "us-gaap" "DebtCurrent" ["USD"] false pref).1 =
        none →
      (parse_core_metrics_with_meta cf pref).1.net_debt = none) ∧
    (∀ v, (get_fact_with_item cf.facts "us-gaap" "DebtCurrent" ["USD"]
        false pref).1 = some v →
      (parse_core_metrics_with_meta cf pref).1.net_debt =
        some (v / 1000000 - c / 1000000)) := by
  constructor
  · intro hdc
    simp [parse_core_metrics_with_meta, hld1, hld2, hca, hdc]
  · intro v hdc
    have hnone : pyOrQF none 0 = 0 := rfl
    simp [parse_core_metrics_with_meta, hld1, hld2, hca, hdc,
      pyOrQF_some_zero_default, hnone]
    ring

/-- C1 (witness): the amended claim applied to a concrete document with a
current-debt fact of 2,000,000,000 and a cash fact of 500,000,000. -/
theorem net_debt_nullability_meta_witness :
    (parse_core_metrics_with_meta debtCashDoc "ANY").1.net_debt =
      some ((2000000000 : ℚ) / 1000000 - (500000000 : ℚ) / 1000000) :=
  (net_debt_nullability_meta debtCashDoc "ANY" 500000000 (by decide) (by decide)
    (by decide)).2 2000000000 (by decide)

/-- C9 (counterexample): when the preferred equity tag selects the value
0, `parse_core_metrics` does consult the fallback tag (Python `or`
treats `0.0` as falsy), so the first tag with a selected value does not
always win: here the snapshot equity is the fallback's 7000, not 0. -/
theorem zero_value_falls_through_counterexample :
    get_fact zeroEquityDoc.facts "us-gaap"
      "StockholdersEquityIncludingPortionAttributableToNoncontrollingInterest"
      ["USD"] true "ANY" = some 0 ∧
    (parse_core_metrics zeroEquityDoc "ANY").shareholder_equity = some 7000 ∧
    (parse_core_metrics zeroEquityDoc "ANY").shareholder_equity ≠ some 0 := by
  refine ⟨?_, ?_, ?_⟩ <;> decide

/-- C9 (amended): in `parse_core_metrics`, the first tag of the equity
fallback chain wins only when its selected value is non-null and nonzero;
a selected value of exactly 0 (like a missing value) falls through to the
fallback tag, whose result is then used unmerged. In the metadata
variant, the first tag with any selected value — including 0 — wins. -/
theorem equity_fallback_chain (cf : CompanyFacts) (pref : String) (v : ℚ) :
    ((get_fact cf.facts "us-gaap"
        "StockholdersEquityIncludingPortionAttributableToNoncontrollingInterest"
        ["USD"] true "ANY" = some v) → v ≠ 0 →
      (parse_core_metrics cf pref).shareholder_equity = some (v / 1000000)) ∧
    ((get_fact cf.facts "us-gaap"
        "StockholdersEquityIncludingPortionAttributableToNoncontrollingInterest"
        ["USD"] true "ANY" = some 0 ∨
      get_fact cf.facts "us-gaap"
        "StockholdersEquityIncludingPortionAttributableToNoncontrollingInterest"
        ["USD"] true "ANY" = none) →
      (parse_core_metrics cf pref).shareholder_equity =
        (get_fact cf.facts "us-gaap" "StockholdersEquity" ["USD"] true "ANY").map
          (fun x => x / 1000000)) ∧
    (((get_fact_with_item cf.facts "us-gaap"
        "StockholdersEquityIncludingPortionAttributableToNoncontrollingInterest"
        ["USD"] false pref).1 = some v) →
      (parse_core_metrics_with_meta cf pref).1.shareholder_equity =
        some (v / 1000000)) := by
  refine ⟨?_, ?_, ?_⟩
  · intro h hv
    have hdiv : v / 1000000 ≠ 0 := by
      simp [div_eq_zero_iff, hv]
    simp [parse_core_metrics, h, pyOrQ, hdiv]
  · intro h
    rcases h with h | h <;> simp [parse_core_metrics, h, pyOrQ]
  · intro h
    simp [parse_core_metrics_with_meta, h]

/-- C9 (witness): the amended claim applied to the concrete document
whose preferred equity tag selects 0 — the metadata variant keeps the 0,
the plain parse falls through to the fallback tag. -/
theorem equity_fallback_chain_witness :
    (parse_core_metrics_with_meta zeroEquityDoc "ANY").1.shareholder_equity =
        some ((0 : ℚ) / 1000000) ∧
      (parse_core_metrics zeroEquityDoc "ANY").shareholder_equity =
        (get_fact zeroEquityDoc.facts "us-gaap" "StockholdersEquity" ["USD"]
          true "ANY").map (fun x => x / 1000000) :=
  ⟨(equity_fallback_chain zeroEquityDoc "ANY" 0).2.2 (by decide),
   (equity_fallback_chain zeroEquityDoc "ANY" 0).2.1 (Or.inl (by decide))⟩

/-- C2 (counterexample): for the all-whitespace text `"   "` with match
offsets `(0, 3)` and the default context window, the produced citation
has `span = (0, 3)` but an empty (stripped) `text_preview`, violating
`span.end ≤ length(text_preview)`. -/
theorem citation_span_validity_counterexample :
    ¬ (0 ≤ (create_citation_from_match ("doc.txt".toList) 1 ("   ".toList)
            0 3 100).span.1 ∧
       (create_citation_from_match ("doc.txt".toList) 1 ("   ".toList)
            0 3 100).span.1 ≤
         (create_citation_from_match ("doc.txt".toList) 1 ("   ".toList)
            0 3 100).span.2 ∧
       (create_citation_from_match ("doc.txt".toList) 1 ("   ".toList)
            0 3 100).span.2 ≤
         ((create_citation_from_match ("doc.txt".toList) 1 ("   ".toList)
            0 3 100).text_preview.length : Int)) := by
  decide

/-- C2 (amended): for match offsets `0 ≤ start ≤ end ≤ len(text)` and a
nonnegative context window, the citation satisfies
`0 ≤ span.start ≤ span.end`, and `span.end` is bounded by the length
`preview_end - preview_start` of the preview window before whitespace
stripping (the stripped `text_preview` itself can be shorter than
`span.end`, as the counterexample shows). -/
theorem citation_span_bounds (doc_id : Str) (page : Int) (text : Str)
    (start_pos end_pos context_chars : Int)
    (h0 : 0 ≤ start_pos) (h1 : start_pos ≤ end_pos)
    (h2 : end_pos ≤ (text.length : Int)) (h3 : 0 ≤ context_chars) :
    0 ≤ (create_citation_from_match doc_id page text start_pos end_pos
          context_chars).span.1 ∧
    (create_citation_from_match doc_id page text start_pos end_pos
        context_chars).span.1 ≤
      (create_citation_from_match doc_id page text start_pos end_pos
        context_chars).span.2 ∧
    (create_citation_from_match doc_id page text start_pos end_pos
        context_chars).span.2 ≤
      min (text.length : Int) (end_pos + context_chars.fdiv 2) -
        max 0 (start_pos - context_chars.fdiv 2) := by
  have hk : 0 ≤ context_chars.fdiv 2 := Int.fdiv_nonneg h3 (by norm_num)
  simp only [create_citation_from_match]
  refine ⟨?_, ?_, ?_⟩ <;> omega

/-- C2 (witness): the amended span bounds at a concrete text and match. -/
theorem citation_span_bounds_witness :
    0 ≤ (create_citation_from_match ("d".toList) 1 ("abcdef".toList) 2 4 10).span.1 ∧
    (create_citation_from_match ("d".toList) 1 ("abcdef".toList) 2 4 10).span.1 ≤
      (create_citation_from_match ("d".toList) 1 ("abcdef".toList) 2 4 10).span.2 ∧
    (create_citation_from_match ("d".toList) 1 ("abcdef".toList) 2 4 10).span.2 ≤
      min ((("abcdef".toList).length : Int)) (4 + (10 : Int).fdiv 2) -
        max 0 (2 - (10 : Int).fdiv 2) :=
  citation_span_bounds ("d".toList) 1 ("abcdef".toList) 2 4 10 (by decide) (by decide)
    (by decide) (by decide)

theorem startsWithB_iff (w : Str) : ∀ s, startsWithB s w = true ↔ ∃ rest, s = w ++ rest := by
  induction w with
  | nil =>
    intro s
    simp only [startsWithB, List.nil_append]
    exact ⟨fun _ => ⟨s, rfl⟩, fun _ => trivial⟩
  | cons a w ih =>
    intro s
    cases s with
    | nil =>
      simp only [startsWithB]
      constructor
      · intro h; cases h
      · rintro ⟨rest, h⟩; cases h
    | cons c t =>
      simp only [startsWithB, Bool.and_eq_true, decide_eq_true_eq, ih,
        List.cons_append]
      constructor
      · rintro ⟨rfl, rest, rfl⟩
        exact ⟨rest, rfl⟩
      · rintro ⟨rest, h⟩
        injection h with h1 h2
        exact ⟨h1, rest, h2⟩

theorem lastOr_cons (prev : Option Char) (c : Char) (pre : Str) :
    lastOr prev (c :: pre) = lastOr (some c) pre := by
  cases pre with
  | nil => rfl
  | cons d t =>
    simp only [lastOr, List.getLast?_cons_cons]
    cases h : (d :: t).getLast? with
    | none => exact absurd (List.getLast?_eq_none_iff.mp h) (by simp)
    | some x => rfl

theorem containsWWAux_iff (w : Str) (hw : w ≠ []) :
    ∀ (hay : Str) (prev : Option Char),
      containsWWAux w prev hay = true ↔
        ∃ pre post, hay = pre ++ w ++ post ∧
          boundaryB (lastOr prev pre) = true ∧ afterB post = true := by
  intro hay
  induction hay with
  | nil =>
    intro prev
    simp only [containsWWAux]
    constructor
    · intro h; cases h
    · rintro ⟨pre, post, heq, -, -⟩
      rcases List.append_eq_nil.mp (List.append_eq_nil.mp heq.symm).1 with ⟨-, hw2⟩
      exact absurd hw2 hw
  | cons c rest ih =>
    intro prev
    simp only [containsWWAux, Bool.or_eq_true, Bool.and_eq_true]
    constructor
    · rintro (⟨⟨hb, hstart⟩, hafter⟩ | htail)
      · obtain ⟨tail, htl⟩ := (startsWithB_iff w (c :: rest)).mp hstart
        refine ⟨[], tail, by simpa using htl, ?_, ?_⟩
        · simpa [lastOr, boundaryB] using hb
        · rw [htl, List.drop_left] at hafter
          simpa [afterB] using hafter
      · obtain ⟨pre, post, heq, hb, ha⟩ := (ih (some c)).mp htail
        exact ⟨c :: pre, post, by simp [heq], by rwa [lastOr_cons], ha⟩
    · rintro ⟨pre, post, heq, hb, ha⟩
      cases pre with
      | nil =>
        left
        simp only [List.nil_append] at heq
        refine ⟨⟨?_, (startsWithB_iff w (c :: rest)).mpr ⟨post, heq⟩⟩, ?_⟩
        · simpa [lastOr, boundaryB] using hb
        · rw [heq, List.drop_left]
          simpa [afterB] using ha
      | cons c2 pre2 =>
        right
        simp only [List.cons_append] at heq
        injection heq with h1 h2
        subst h1
        exact (ih (some c)).mpr ⟨pre2, post, h2, by rwa [lastOr_cons] at hb, ha⟩

theorem containsWW_iff (wStr : String) (hw : wStr.toList ≠ []) (t : Str) :
    containsWW wStr t = true ↔ wholeWordOccurrence wStr.toList t := by
  unfold containsWW wholeWordOccurrence
  rw [containsWWAux_iff wStr.toList hw t none]
  constructor
  · rintro ⟨pre, post, heq, hb, ha⟩
    refine ⟨pre, post, heq, ?_, ?_⟩
    · cases hl : pre.getLast? with
      | none => exact Or.inl (List.getLast?_eq_none_iff.mp hl)
      | some x =>
        right
        refine ⟨x, rfl, ?_⟩
        simp only [lastOr, hl, boundaryB, Bool.not_eq_true'] at hb
        exact hb
    · cases post with
      | nil => exact Or.inl rfl
      | cons d ds =>
        right
        refine ⟨d, rfl, ?_⟩
        simpa [afterB, Bool.not_eq_true'] using ha
  · rintro ⟨pre, post, heq, hbd, had⟩
    refine ⟨pre, post, heq, ?_, ?_⟩
    · rcases hbd with rfl | ⟨x, hl, hx⟩
      · simp [lastOr, boundaryB]
      · simp [lastOr, hl, boundaryB, Bool.not_eq_true', hx]
    · rcases had with rfl | ⟨x, hh, hx⟩
      · simp [afterB]
      · cases post with
        | nil => simp [afterB]
        | cons d ds =>
          simp only [List.head?_cons, Option.some.injEq] at hh
          subst hh
          simp [afterB, Bool.not_eq_true', hx]

/-- C7: the scale-multiplier function is total with exactly three possible
results; it returns 1000 exactly when the text contains a whole-word
`billion`/`billions`/`bn` case-insensitively; 1/1000 exactly when it does
not contain a billion word but contains whole-word
`thousand`/`thousands`; and 1 otherwise (including `million`/`mm`
variants and no scale word); word boundaries prevent false positives —
`"500 tons"` yields 1, and `"carbon"` (which contains `bn` without
boundaries) yields 1. -/
theorem scale_multiplier_spec (t : Str) :
    (infer_scale_multiplier t = 1000 ∨ infer_scale_multiplier t = 1 / 1000 ∨
      infer_scale_multiplier t = 1) ∧
    (infer_scale_multiplier t = 1000 ↔
      (hasWholeWordCI "billion" t ∨ hasWholeWordCI "billions" t ∨
        hasWholeWordCI "bn" t)) ∧
    (infer_scale_multiplier t = 1 / 1000 ↔
      (¬ (hasWholeWordCI "billion" t ∨ hasWholeWordCI "billions" t ∨
          hasWholeWordCI "bn" t) ∧
        (hasWholeWordCI "thousand" t ∨ hasWholeWordCI "thousands" t))) ∧
    (infer_scale_multiplier t = 1 ↔
      (¬ (hasWholeWordCI "billion" t ∨ hasWholeWordCI "billions" t ∨
          hasWholeWordCI "bn" t) ∧
        ¬ (hasWholeWordCI "thousand" t ∨ hasWholeWordCI "thousands" t))) ∧
    infer_scale_multiplier ("500 tons".toList) = 1 ∧
    infer_scale_multiplier ("carbon".toList) = 1 := by
  have hB : (containsWW "billion" (t.map Char.toLower) ||
      containsWW "billions" (t.map Char.toLower) ||
      containsWW "bn" (t.map Char.toLower)) = true ↔
      (hasWholeWordCI "billion" t ∨ hasWholeWordCI "billions" t ∨
        hasWholeWordCI "bn" t) := by
    simp only [Bool.or_eq_true, hasWholeWordCI,
      containsWW_iff "billion" (by decide) (t.map Char.toLower),
      containsWW_iff "billions" (by decide) (t.map Char.toLower),
      containsWW_iff "bn" (by decide) (t.map Char.toLower)]
    tauto
  have hT : (containsWW "thousand" (t.map Char.toLower) ||
      containsWW "thousands" (t.map Char.toLower)) = true ↔
      (hasWholeWordCI "thousand" t ∨ hasWholeWordCI "thousands" t) := by
    simp only [Bool.or_eq_true, hasWholeWordCI,
      containsWW_iff "thousand" (by decide) (t.map Char.toLower),
      containsWW_iff "thousands" (by decide) (t.map Char.toLower)]
  have hq1 : (1000 : ℚ) ≠ 1 / 1000 := by norm_num
  have hq2 : (1000 : ℚ) ≠ 1 := by norm_num
  have hq3 : (1 / 1000 : ℚ) ≠ 1 := by norm_num
  by_cases hb : (containsWW "billion" (t.map Char.toLower) ||
      containsWW "billions" (t.map Char.toLower) ||
      containsWW "bn" (t.map Char.toLower)) = true
  · have hv : infer_scale_multiplier t = 1000 := by
      unfold infer_scale_multiplier
      simp only [Bool.or_eq_true] at hb ⊢
      rw [if_pos hb]
    have hBor := hB.mp hb
    refine ⟨Or.inl hv, ?_, ?_, ?_, by decide, by decide⟩
    · exact ⟨fun _ => hBor, fun _ => hv⟩
    · exact ⟨fun h => absurd (hv.symm.trans h) hq1, fun h => absurd hBor h.1⟩
    · exact ⟨fun h => absurd (hv.symm.trans h) hq2, fun h => absurd hBor h.1⟩
  · have hBfalse : ¬ (hasWholeWordCI "billion" t ∨ hasWholeWordCI "billions" t ∨
        hasWholeWordCI "bn" t) := fun h => hb (hB.mpr h)
    by_cases ht : (containsWW "thousand" (t.map Char.toLower) ||
        containsWW "thousands" (t.map Char.toLower)) = true
    · have hv : infer_scale_multiplier t = 1 / 1000 := by
        unfold infer_scale_multiplier
        rw [if_neg (by simpa using hb), if_pos ht]
      have hTor := hT.mp ht
      refine ⟨Or.inr (Or.inl hv), ?_, ?_, ?_, by decide, by decide⟩
      · exact ⟨fun h => absurd (h.symm.trans hv) hq1, fun h2 => (hBfalse h2).elim⟩
      · exact ⟨fun _ => ⟨hBfalse, hTor⟩, fun _ => hv⟩
      · exact ⟨fun h => absurd (hv.symm.trans h) hq3, fun h => absurd hTor h.2⟩
    · have hTfalse : ¬ (hasWholeWordCI "thousand" t ∨ hasWholeWordCI "thousands" t) :=
        fun h => ht (hT.mpr h)
      have hv : infer_scale_multiplier t = 1 := by
        unfold infer_scale_multiplier
        rw [if_neg (by simpa using hb), if_neg (by simpa using ht)]
        split <;> rfl
      refine ⟨Or.inr (Or.inr hv), ?_, ?_, ?_, by decide, by decide⟩
      · exact ⟨fun h => absurd (h.symm.trans hv) hq2, fun h2 => (hBfalse h2).elim⟩
      · exact ⟨fun h => absurd (h.symm.trans hv) hq3, fun h2 => (hTfalse h2.2).elim⟩
      · exact ⟨fun _ => ⟨hBfalse, hTfalse⟩, fun _ => hv⟩

theorem kpiLoop_state_some (o : ReOracle) (content doc_id unit prefer normalize : Str)
    (hp : prefer.isEmpty = false) :
    ∀ (ps : List Str) (bp : Str) (bv : Option ℚ) (bc : Option Citation),
      kpiLoop o content doc_id unit prefer normalize ps (some bp, bv, bc) =
        match ps.find? (isPreferredPattern o content doc_id unit normalize prefer) with
        | some p => mkKPI o content doc_id unit normalize p
        | none =>
          if bp.isEmpty then none
          else
            match bv, bc with
            | some v, some c => some { value := v, unit := unit, citation := c }
            | _, _ => none := by
  intro ps
  induction ps with
  | nil => intro bp bv bc; rfl
  | cons p rest ih =>
    intro bp bv bc
    simp only [kpiLoop]
    cases hs : extract_single_kpi o content p doc_id unit normalize with
    | mk val cit =>
      cases val with
      | none =>
        have hpref : isPreferredPattern o content doc_id unit normalize prefer p
            = false := by
          simp [isPreferredPattern, hs]
        rw [List.find?_cons_of_neg _ (by simp [hpref])]
        exact ih bp bv bc
      | some v =>
        simp only [hp, Bool.false_eq_true, if_false]
        by_cases hhit : (match o.compileSearch p content with
          | Except.ok (some m) => containsSubStr prefer (sliceNat content m.start m.end_)
          | _ => false) = true
        · have hpref : isPreferredPattern o content doc_id unit normalize prefer p
              = true := by
            simp [isPreferredPattern, hs, hhit]
          rw [List.find?_cons_of_pos _ (by simp [hpref])]
          simp only [hhit, if_true, mkKPI, hs]
          cases cit <;> rfl
        · have hhit2 : (match o.compileSearch p content with
            | Except.ok (some m) =>
              containsSubStr prefer (sliceNat content m.start m.end_)
            | _ => false) = false := by simpa using hhit
          have hpref : isPreferredPattern o content doc_id unit normalize prefer p
              = false := by
            simp [isPreferredPattern, hs, hhit2]
          rw [List.find?_cons_of_neg _ (by simp [hpref])]
          rw [if_neg hhit]
          exact ih bp bv bc

theorem kpiLoop_state_none (o : ReOracle) (content doc_id unit prefer normalize : Str)
    (hp : prefer.isEmpty = false) :
    ∀ (ps : List Str),
      kpiLoop o content doc_id unit prefer normalize ps (none, none, none) =
        match ps.find? (isPreferredPattern o content doc_id unit normalize prefer) with
        | some p => mkKPI o content doc_id unit normalize p
        | none =>
          match ps.find? (yieldsValue o content doc_id unit normalize) with
          | some q =>
            if q.isEmpty then none else mkKPI o content doc_id unit normalize q
          | none => none := by
  intro ps
  induction ps with
  | nil => rfl
  | cons p rest ih =>
    simp only [kpiLoop]
    cases hs : extract_single_kpi o content p doc_id unit normalize with
    | mk val cit =>
      cases val with
      | none =>
        have hyld : yieldsValue o content doc_id unit normalize p = false := by
          simp [yieldsValue, hs]
        have hpref : isPreferredPattern o content doc_id unit normalize prefer p
            = false := by
          simp [isPreferredPattern, hs]
        rw [List.find?_cons_of_neg _ (by simp [hpref]),
          List.find?_cons_of_neg _ (by simp [hyld])]
        exact ih
      | some v =>
        have hyld : yieldsValue o content doc_id unit normalize p = true := by
          simp [yieldsValue, hs]
        simp only [hp, Bool.false_eq_true, if_false]
        by_cases hhit : (match o.compileSearch p content with
          | Except.ok (some m) => containsSubStr prefer (sliceNat content m.start m.end_)
          | _ => false) = true
        · have hpref : isPreferredPattern o content doc_id unit normalize prefer p
              = true := by
            simp [isPreferredPattern, hs, hhit]
          rw [List.find?_cons_of_pos _ (by simp [hpref])]
          simp only [hhit, if_true, mkKPI, hs]
          cases cit <;> rfl
        · have hhit2 : (match o.compileSearch p content with
            | Except.ok (some m) =>
              containsSubStr prefer (sliceNat content m.start m.end_)
            | _ => false) = false := by simpa using hhit
          have hpref : isPreferredPattern o content doc_id unit normalize prefer p
              = false := by
            simp [isPreferredPattern, hs, hhit2]
          rw [List.find?_cons_of_neg _ (by simp [hpref]),
            List.find?_cons_of_pos _ (by simp [hyld])]
          rw [if_neg hhit]
          rw [kpiLoop_state_some o content doc_id unit prefer normalize hp rest p
            (some v) cit]
          cases hfind : rest.find?
              (isPreferredPattern o content doc_id unit normalize prefer) with
          | some p2 => simp
          | none =>
            simp only [mkKPI, hs]
            cases cit <;> simp

/-- C4: the per-KPI pattern loop equals its specification — with a
preferred substring configured, the first pattern whose match contains it
(case-sensitively) wins immediately and iteration stops; otherwise the
first value-yielding pattern is retained as the only fallback and used in
the end (unless that pattern is the empty string, which Python truthiness
discards — an empty pattern cannot yield a value under real regex
semantics); with no preference configured, the first value-yielding
pattern wins immediately. -/
theorem kpi_preference_selection (o : ReOracle)
    (content doc_id unit prefer normalize : Str) (ps : List Str) :
    kpiLoop o content doc_id unit prefer normalize ps (none, none, none) =
      kpiSpec o content doc_id unit prefer normalize ps := by
  by_cases hp : prefer.isEmpty
  · unfold kpiSpec
    rw [if_pos hp]
    induction ps with
    | nil => rfl
    | cons p rest ih =>
      simp only [kpiLoop]
      cases hs : extract_single_kpi o content p doc_id unit normalize with
      | mk val cit =>
        cases val with
        | none =>
          have hyld : yieldsValue o content doc_id unit normalize p = false := by
            simp [yieldsValue, hs]
          rw [List.find?_cons_of_neg _ (by simp [hyld])]
          exact ih
        | some v =>
          have hyld : yieldsValue o content doc_id unit normalize p = true := by
            simp [yieldsValue, hs]
          rw [List.find?_cons_of_pos _ (by simp [hyld])]
          simp only [hp, if_true, mkKPI, hs]
          cases cit <;> simp
  · rw [kpiLoop_state_none o content doc_id unit prefer normalize
      (Bool.not_eq_true _ ▸ (by simpa using hp)) ps]
    unfold kpiSpec
    rw [if_neg hp]

/-- C8: an unconfigured ticker makes the whole extraction fail with the
configuration-missing error (no partial results), and a pattern whose
compilation or matching raises is treated as a non-match for that pattern
alone — the single-KPI extraction returns `(None, None)` and the pattern
loop continues exactly as if the pattern were skipped. -/
theorem extraction_error_handling (o : ReOracle)
    (mappings : List (String × List (String × KPIConfig))) (content doc_id : Str)
    (ticker : String) (p : Str) (ps : List Str) (unit prefer normalize : Str)
    (st : Option Str × Option ℚ × Option Citation) (msg : Str)
    (hmap : dictGet mappings ticker = none)
    (herr : o.compileSearch p content = Except.error msg) :
    extract_from_file o mappings content doc_id ticker =
      Except.error (("No mappings found for ticker: " ++ ticker).toList) ∧
    extract_single_kpi o content p doc_id unit normalize = (none, none) ∧
    kpiLoop o content doc_id unit prefer normalize (p :: ps) st =
      kpiLoop o content doc_id unit prefer normalize ps st := by
  have hsingle : extract_single_kpi o content p doc_id unit normalize =
      (none, none) := by
    unfold extract_single_kpi
    rw [herr]
  refine ⟨?_, hsingle, ?_⟩
  · unfold extract_from_file
    rw [hmap]
  · simp only [kpiLoop, hsingle]

/-- C8 (witness): the error-handling claim at a concrete unconfigured
ticker and an always-raising oracle. -/
theorem extraction_error_handling_witness :
    extract_from_file failingOracle [] ("doc text".toList) ("d.txt".toList) "XYZ" =
      Except.error (("No mappings found for ticker: " ++ "XYZ").toList) ∧
    extract_single_kpi failingOracle ("doc text".toList) ("EBITDA [".toList)
      ("d.txt".toList) [] [] = (none, none) ∧
    kpiLoop failingOracle ("doc text".toList) ("d.txt".toList) [] [] []
        ["EBITDA [".toList] (none, none, none) =
      kpiLoop failingOracle ("doc text".toList) ("d.txt".toList) [] [] [] []
        (none, none, none) :=
  extraction_error_handling failingOracle [] ("doc text".toList) ("d.txt".toList)
    "XYZ" ("EBITDA [".toList) [] [] [] [] (none, none, none)
    ("compile failure".toList) rfl rfl

/-- C10: whether a match is preferred is decided by case-sensitive
substring containment even though pattern matching is case-insensitive:
on a document whose first (uppercase) occurrence `ADJUSTED EBITDA $500`
contains the configured substring `Adjusted` only with different
letter-case, the first pattern's value 500 is held as a non-preferred
fallback rather than accepted immediately, and the later pattern matching
the mixed-case `Adjusted EBITDA $700` is preferred and wins. -/
theorem preference_case_sensitivity :
    processKPIConfig caseOracle caseContent ("doc.txt".toList) caseCfg =
      some { value := 700, unit := "CAD millions".toList,
             citation := { doc_id := "doc.txt".toList, page := 1, span := (25, 45),
                           text_preview := caseContent } } ∧
    (extract_single_kpi caseOracle caseContent casePat1 ("doc.txt".toList)
        caseCfg.unit caseCfg.normalize).1 = some 500 ∧
    containsSubStr ("Adjusted".toList) (sliceNat caseContent 0 20) = false ∧
    containsSubStr ("adjusted".toList) ((sliceNat caseContent 0 20).map Char.toLower)
      = true := by
  refine ⟨?_, ?_, ?_, ?_⟩ <;> decide

end EnergyIC
